import Mathlib

/-!
Verification of the ST7735 display driver (`src/Examples/DrawTest/st7735.c`)
against its natural-language specification.

The driver is shallowly embedded: the process-wide driver state
(`_cursor_x`, `_cursor_y`, `_color`, `_bg_color`, the scratch DMA row
buffer, the DC/CS lines, and the observable bus/DMA behaviour) becomes an
explicit `DriverState` record threaded through each operation.  Bytes
clocked out on the SPI bus are recorded in `trace`, tagged with the level
of the DC (data/command) line at the moment they are sent; register-level
interactions with the DMA engine are recorded in `dmaActs`.  Machine
integers are `Nat`/`Int` with explicit `% 2^w` reductions at the points
where the C code performs (or would perform) a narrowing conversion.
-/

/-- High byte of a 16-bit value, as sent first by `write_data_16`
(`data >> 8`, truncated to a `uint8` by `SPI_send`'s parameter). -/
def hi16 (v : Nat) : Nat := v / 256 % 256

/-- Low byte of a 16-bit value, as sent second by `write_data_16`
(`(uint8)data`). -/
def lo16 (v : Nat) : Nat := v % 256

/-- The fixed X offset of the visible viewport inside panel memory
(`ST7735_X_OFFSET` in `st7735.h`). -/
def ST7735_X_OFFSET : Nat := 1

/-- The fixed Y offset of the visible viewport inside panel memory
(`ST7735_Y_OFFSET` in `st7735.h`). -/
def ST7735_Y_OFFSET : Nat := 26

/-- Display width in pixels (`ST7735_WIDTH`). -/
def ST7735_WIDTH : Nat := 160

/-- Display height in pixels (`ST7735_HEIGHT`). -/
def ST7735_HEIGHT : Nat := 80

/-- Capacity of the scratch row buffer `_buffer[ST7735_WIDTH << 1]`:
one full display row at 16 bits per pixel, i.e. 320 bytes. -/
def bufferCapacity : Nat := ST7735_WIDTH * 2

/-- One register-level interaction with the DMA bulk-transfer engine,
as performed by `SPI_send_DMA`. -/
inductive DMAAction where
  /-- `DMA1_Channel3->MADDR = (uint32_t)buffer;` -/
  | setAddr : DMAAction
  /-- `DMA1_Channel3->CNTR = size;` -/
  | setLen : Nat → DMAAction
  /-- `DMA1_Channel3->CFGR |= DMA_CFGR1_EN;` -/
  | enable : DMAAction
  /-- `DMA1->INTFCR = DMA1_FLAG_TC3;` (clear the completion flag) -/
  | clearFlag : DMAAction
  /-- `while (!(DMA1->INTFR & DMA1_FLAG_TC3));` (poll until complete) -/
  | waitComplete : DMAAction
  /-- `DMA1_Channel3->CFGR &= ~DMA_CFGR1_EN;` -/
  | disable : DMAAction
deriving DecidableEq, Repr

/-- The driver's process-wide mutable state together with the observable
bus behaviour.  `dc = true` means the DC line is high (DATA mode),
`dc = false` means it is low (COMMAND mode).  `cs = true` means the chip
select line is high (deselected).  Every byte clocked out over SPI is
appended to `trace` together with the DC level under which it was sent. -/
structure DriverState where
  cursor_x : Nat
  cursor_y : Nat
  color : Nat
  bg_color : Nat
  buffer : List Nat
  dc : Bool
  cs : Bool
  trace : List (Bool × Nat)
  dmaActs : List DMAAction
deriving DecidableEq, Repr

/-- Driver state after `SPI_init` and the static initializers of
`st7735.c`: cursor at the origin, color `WHITE = 0xFFFF`, background
`BLACK = 0`, scratch buffer zeroed. -/
def initState : DriverState :=
  { cursor_x := 0, cursor_y := 0, color := 0xFFFF, bg_color := 0,
    buffer := List.replicate bufferCapacity 0,
    dc := false, cs := true, trace := [], dmaActs := [] }

/-- `DATA_MODE()`: drive the DC line high. -/
def DATA_MODE (s : DriverState) : DriverState := { s with dc := true }

/-- `COMMAND_MODE()`: drive the DC line low. -/
def COMMAND_MODE (s : DriverState) : DriverState := { s with dc := false }

/-- `START_WRITE()`: pull CS low (assert SELECTED). -/
def START_WRITE (s : DriverState) : DriverState := { s with cs := false }

/-- `END_WRITE()`: pull CS high (deassert). -/
def END_WRITE (s : DriverState) : DriverState := { s with cs := true }

/-- `SPI_send(data)`: clock one byte out over SPI (the `uint8_t`
parameter truncates to a byte) and spin until transmit-complete.  The
byte is observed on the bus under the current DC level. -/
def SPI_send (b : Nat) (s : DriverState) : DriverState :=
  { s with trace := s.trace ++ [(s.dc, b % 256)] }

/-- `write_command_8(cmd)`: COMMAND mode, then send one byte. -/
def write_command_8 (cmd : Nat) (s : DriverState) : DriverState :=
  SPI_send cmd (COMMAND_MODE s)

/-- `write_data_8(data)`: DATA mode, then send one byte. -/
def write_data_8 (data : Nat) (s : DriverState) : DriverState :=
  SPI_send data (DATA_MODE s)

/-- `write_data_16(data)`: DATA mode, then send `data >> 8` followed by
the low byte of `data` (MSB first). -/
def write_data_16 (data : Nat) (s : DriverState) : DriverState :=
  SPI_send data (SPI_send (data / 256) (DATA_MODE s))

/-- The `while (repeat--)` loop body of `SPI_send_DMA`: each iteration
clears the channel-3 transfer-complete flag and polls until the engine
reports completion. -/
def dmaCycles : Nat → List DMAAction
  | 0 => []
  | r + 1 => DMAAction.clearFlag :: DMAAction.waitComplete :: dmaCycles r

/-- The byte stream the circular-mode DMA engine clocks out: the first
`size` bytes of the source buffer, re-read once per repetition. -/
def dmaStream (buf : List Nat) (size : Nat) : Nat → List Nat
  | 0 => []
  | r + 1 => buf.take size ++ dmaStream buf size r

/-- Whether the DMA channel is enabled after a list of register-level
actions, starting from a given enable state. -/
def engineEnabledAfter (l : List DMAAction) (e : Bool) : Bool :=
  l.foldl
    (fun e a =>
      match a with
      | DMAAction.enable => true
      | DMAAction.disable => false
      | _ => e) e

/-- `SPI_send_DMA(buffer, size, repeat)`: set the channel's source
address and length, enable it, run `repeat` clear-flag/poll-completion
cycles (the engine re-streams the same `size` bytes each cycle), then
disable the channel.  The streamed bytes appear on the bus under the
current DC level. -/
def SPI_send_DMA (buf : List Nat) (size rep : Nat) (s : DriverState) : DriverState :=
  { s with
    dmaActs := s.dmaActs
      ++ [DMAAction.setAddr, DMAAction.setLen size, DMAAction.enable]
      ++ dmaCycles rep ++ [DMAAction.disable],
    trace := s.trace ++ (dmaStream buf size rep).map (fun b => (s.dc, b)) }

/-- `tft_set_window(x0, y0, x1, y1)`: column-address-set with the pair
`(x0, x1)`, row-address-set with `(y0, y1)`, then memory-write. -/
def tft_set_window (x0 y0 x1 y1 : Nat) (s : DriverState) : DriverState :=
  write_command_8 0x2C
    (write_data_16 y1
      (write_data_16 y0
        (write_command_8 0x2B
          (write_data_16 x1
            (write_data_16 x0
              (write_command_8 0x2A s))))))

/-- The byte/mode sequence `tft_set_window` puts on the bus: each
command byte under COMMAND mode, each 16-bit argument as two bytes, MSB
first, under DATA mode. -/
def setWindowBytes (x0 y0 x1 y1 : Nat) : List (Bool × Nat) :=
  [(false, 0x2A), (true, hi16 x0), (true, lo16 x0), (true, hi16 x1), (true, lo16 x1),
   (false, 0x2B), (true, hi16 y0), (true, lo16 y0), (true, hi16 y1), (true, lo16 y1),
   (false, 0x2C)]

theorem set_window_run (x0 y0 x1 y1 : Nat) (s : DriverState) :
    tft_set_window x0 y0 x1 y1 s =
      { s with dc := false, trace := s.trace ++ setWindowBytes x0 y0 x1 y1 } := by
  simp [tft_set_window, write_command_8, write_data_16, SPI_send, COMMAND_MODE,
    DATA_MODE, setWindowBytes, hi16, lo16]

/-- `tft_set_cursor(x, y)`: store the offset-translated coordinates into
`_cursor_x`/`_cursor_y` (which are `uint16_t`). -/
def tft_set_cursor (x y : Nat) (s : DriverState) : DriverState :=
  { s with
    cursor_x := (x + ST7735_X_OFFSET) % 65536,
    cursor_y := (y + ST7735_Y_OFFSET) % 65536 }

/-- `tft_set_color(color)`. -/
def tft_set_color (color : Nat) (s : DriverState) : DriverState :=
  { s with color := color % 65536 }

/-- `tft_set_background_color(color)`. -/
def tft_set_background_color (color : Nat) (s : DriverState) : DriverState :=
  { s with bg_color := color % 65536 }

/-- The row-building loop shared (textually) by `tft_fill_rect`
(`for (x = 0; x < width; x++)`) and the fast-line primitives: write `n`
pixels of `color` into the scratch buffer as big-endian byte pairs. -/
def fillRow : Nat → Nat → List Nat
  | 0, _ => []
  | n + 1, color => hi16 color :: lo16 color :: fillRow n color

/-- Writing a freshly built prefix into the scratch buffer at offset 0:
the first `row.length` bytes are replaced, the rest keep their old
contents. -/
def bufWrite (row old : List Nat) : List Nat := row ++ old.drop row.length

/-- `tft_draw_pixel(x, y, color)`: offset-translate, open a 1×1 window,
stream one 16-bit value. -/
def tft_draw_pixel (x y color : Nat) (s : DriverState) : DriverState :=
  let x' := (x + ST7735_X_OFFSET) % 65536
  let y' := (y + ST7735_Y_OFFSET) % 65536
  END_WRITE (write_data_16 color (tft_set_window x' y' x' y' (START_WRITE s)))

/-- `tft_fill_rect(x, y, width, height, color)`: offset-translate, build
one row of `width` pixels in the scratch buffer, open a `width × height`
window and issue a single bulk transfer of the `2·width`-byte row with
`repeat = height`.  The `uint16_t` window arithmetic `x + width - 1` is
modelled as `(x' + width + 65535) % 65536`. -/
def tft_fill_rect (x y w h color : Nat) (s : DriverState) : DriverState :=
  let x' := (x + ST7735_X_OFFSET) % 65536
  let y' := (y + ST7735_Y_OFFSET) % 65536
  let row := fillRow w color
  let s1 := { s with buffer := bufWrite row s.buffer }
  let s2 := DATA_MODE (tft_set_window x' y' ((x' + w + 65535) % 65536)
    ((y' + h + 65535) % 65536) (START_WRITE s1))
  END_WRITE (SPI_send_DMA s2.buffer (2 * w) h s2)

/-- `tft_draw_bitmap(x, y, width, height, bitmap)`: open a
`width × height` window and stream the caller-supplied bytes once
(`size = width * height << 1` as a `uint16_t`, `repeat = 1`). -/
def tft_draw_bitmap (x y w h : Nat) (bitmap : List Nat) (s : DriverState) : DriverState :=
  let x' := (x + ST7735_X_OFFSET) % 65536
  let y' := (y + ST7735_Y_OFFSET) % 65536
  let s1 := DATA_MODE (tft_set_window x' y' ((x' + w + 65535) % 65536)
    ((y' + h + 65535) % 65536) (START_WRITE s))
  END_WRITE (SPI_send_DMA bitmap (w * h * 2 % 65536) 1 s1)

/-- `_tft_draw_fast_v_line(x, y, h, color)`: build `h` pixels of `color`
in the scratch buffer, open the 1-wide window
`(x', y')–(x', y' + h - 1)` and transfer once. -/
def tft_draw_fast_v_line (x y h color : Nat) (s : DriverState) : DriverState :=
  let x' := (x + ST7735_X_OFFSET) % 65536
  let y' := (y + ST7735_Y_OFFSET) % 65536
  let row := fillRow h color
  let s1 := { s with buffer := bufWrite row s.buffer }
  let s2 := DATA_MODE (tft_set_window x' y' x' ((y' + h + 65535) % 65536)
    (START_WRITE s1))
  END_WRITE (SPI_send_DMA s2.buffer (2 * h) 1 s2)

/-- `_tft_draw_fast_h_line(x, y, w, color)`: build `w` pixels of `color`
in the scratch buffer, open the 1-tall window
`(x', y')–(x' + w - 1, y')` and transfer once. -/
def tft_draw_fast_h_line (x y w color : Nat) (s : DriverState) : DriverState :=
  let x' := (x + ST7735_X_OFFSET) % 65536
  let y' := (y + ST7735_Y_OFFSET) % 65536
  let row := fillRow w color
  let s1 := { s with buffer := bufWrite row s.buffer }
  let s2 := DATA_MODE (tft_set_window x' y' ((x' + w + 65535) % 65536) y'
    (START_WRITE s1))
  END_WRITE (SPI_send_DMA s2.buffer (2 * w) 1 s2)

/-- The 5×7 glyph rasterization loop of `tft_print_char`: for each of the
7 rows (bit `i` of each column byte) and each of the 5 columns `j`, write
foreground or background color, big-endian, into the scratch buffer.  The
font table (`font5x7.h`, not part of the sources under `src/`) is passed
in as an abstract byte table; `tft_print_char` indexes it at
`c + (c << 2) + j = 5·c + j`. -/
def charBlock (font : Nat → Nat) (c fg bg : Nat) : List Nat :=
  List.flatten ((List.range 7).map (fun i =>
    List.flatten ((List.range 5).map (fun j =>
      if font (5 * c + j) % 256 &&& (1 <<< i) ≠ 0 then [hi16 fg, lo16 fg]
      else [hi16 bg, lo16 bg]))))

/-- `tft_print_char(c)`: rasterize the glyph of character code `c` into
the scratch buffer (70 bytes), open a 5×7 window at the cursor and
transfer once.  The cursor, foreground and background color are read but
not written. -/
def tft_print_char (font : Nat → Nat) (c : Nat) (s : DriverState) : DriverState :=
  let row := charBlock font c s.color s.bg_color
  let s1 := { s with buffer := bufWrite row s.buffer }
  let s2 := DATA_MODE (tft_set_window s1.cursor_x s1.cursor_y
    ((s1.cursor_x + 4) % 65536) ((s1.cursor_y + 6) % 65536) (START_WRITE s1))
  END_WRITE (SPI_send_DMA s2.buffer row.length 1 s2)

/-- `tft_print(str)`: print each character, advancing the cursor by
`FONT_WIDTH + 1 = 6` columns per character (in `uint16_t` arithmetic).
The string is modelled as the list of its character codes. -/
def tft_print (font : Nat → Nat) : List Nat → DriverState → DriverState
  | [], s => s
  | c :: cs, s =>
    let s1 := tft_print_char font c s
    tft_print font cs { s1 with cursor_x := (s1.cursor_x + 6) % 65536 }


/-- Two's-complement wraparound of a 32-bit signed value, used to model
the (undefined-behaviour) overflow of `num = -num` at `INT32_MIN`. -/
def wrap32 (n : Int) : Int := (n + 2147483648) % 4294967296 - 2147483648

/-- The digit-conversion loop of `tft_print_number`
(`while (num) { str[--position] = num % 10 + '0'; num /= 10; }`),
rendered with explicit fuel.  C's `%` and `/` on `int32_t` truncate
toward zero, i.e. `Int.tmod`/`Int.tdiv`.  Each iteration strictly
decreases `|num|` by a factor of 10, so any 32-bit value (at most 10
decimal digits) exhausts the loop well within 12 iterations; the fuel
never runs out on the `int32_t` domain.  The list holds the character
codes left-to-right as they sit in `str`. -/
def convGo : Nat → Int → List Nat
  | 0, _ => []
  | fuel + 1, n =>
    if n = 0 then [] else convGo fuel (n.tdiv 10) ++ [(n.tmod 10 + 48).toNat]

/-- The digit characters produced by `tft_print_number`'s conversion
loop for a given (already sign-processed) value. -/
def convLoop (n : Int) : List Nat := convGo 12 n

/-- The character codes `tft_print_number` places in `str[position..10]`:
digits from the conversion loop, the explicit `'0'` when the loop wrote
nothing, and a leading `'-'` when the original value was negative (the
negation `num = -num` wraps on `int32_t`). -/
def numString (num : Int) : List Nat :=
  let n := if num < 0 then wrap32 (-num) else num
  let ds := convLoop n
  let ds := if ds.isEmpty then [48] else ds
  if num < 0 then 45 :: ds else ds

/-- `tft_print_number(num, width)`: build the decimal string, then if the
requested field width exceeds the string's pixel width
`(11 - position) * (FONT_WIDTH + 1) - 1` advance the cursor by the
difference, then print the string. -/
def tft_print_number (font : Nat → Nat) (num : Int) (width : Nat)
    (s : DriverState) : DriverState :=
  let str := numString num
  let num_width := str.length * 6 - 1
  let s1 := if num_width < width
    then { s with cursor_x := (s.cursor_x + (width - num_width)) % 65536 }
    else s
  tft_print font str s1

/-- Character codes of the decimal string of `num`, written from the
spec's words: the digits of `|num|` most-significant first (the single
digit `'0'` for zero), prefixed by `'-'` when `num` is negative. -/
def specDecimalCodes (num : Int) : List Nat :=
  let ds := if num.natAbs = 0 then [48]
    else (Nat.digits 10 num.natAbs).reverse.map (fun d => d + 48)
  if num < 0 then 45 :: ds else ds

/-- The `_diff(a, b)` helper macro: absolute difference. -/
def cdiff (a b : Int) : Int := if a > b then a - b else b - a

/-- The pixel-emission loop of `_tft_draw_line_bresenham`
(`for (; x0 <= x1; x0++)`).  Pixels are recorded as the
offset-translated coordinates `tft_draw_pixel` addresses: `(y0, x0)`
transposed back when `steep`, `(x0, y0)` otherwise, each plus the fixed
window offset `(1, 26)`. -/
def bresLoop (steep : Bool) (x1 dx dy ystep : Int) (x0 y0 err : Int) :
    List (Int × Int) :=
  if _h : x0 ≤ x1 then
    let p := if steep then (y0 + 1, x0 + 26) else (x0 + 1, y0 + 26)
    let err' := err - dy
    if err' < 0 then
      p :: bresLoop steep x1 dx dy ystep (x0 + 1) (y0 + ystep) (err' + dx)
    else
      p :: bresLoop steep x1 dx dy ystep (x0 + 1) y0 err'
  else []
termination_by (x1 + 1 - x0).toNat
decreasing_by
  all_goals omega

/-- The endpoint normalization of `_tft_draw_line_bresenham`: transpose
x/y when the segment is steeper than 45° (`_diff(y1,y0) > _diff(x1,x0)`),
then swap the endpoints so iteration runs left to right. -/
def bresNorm (x0 y0 x1 y1 : Int) : Bool × Int × Int × Int × Int :=
  let steep := cdiff y1 y0 > cdiff x1 x0
  let q := if steep then (y0, x0, y1, x1) else (x0, y0, x1, y1)
  match q with
  | (a0, b0, a1, b1) =>
    if a0 > a1 then (steep, a1, b1, a0, b0) else (steep, a0, b0, a1, b1)

/-- The full pixel list emitted by `_tft_draw_line_bresenham(x0,y0,x1,y1)`:
normalize, compute `dx`, `dy`, the error accumulator `err = dx >> 1` and
the minor-axis step, then run the emission loop. -/
def bresenhamPixels (x0 y0 x1 y1 : Int) : List (Int × Int) :=
  match bresNorm x0 y0 x1 y1 with
  | (steep, a0, b0, a1, b1) =>
    let dx := a1 - a0
    let dy := cdiff b1 b0
    let err := dx / 2
    let ystep : Int := if b0 < b1 then 1 else -1
    bresLoop steep a1 dx dy ystep a0 b0 err

/-- The pixels painted by `_tft_draw_fast_v_line(x, y, h, color)`: the
window `(x+1, y+26)–(x+1, y+26+h-1)` is one pixel wide, so the `h`
streamed pixels walk down the column. -/
def fastVLinePixels (x y h : Int) : List (Int × Int) :=
  (List.range h.toNat).map (fun j => (x + 1, y + 26 + (j : Int)))

/-- The pixels painted by `_tft_draw_fast_h_line(x, y, w, color)`: the
window `(x+1, y+26)–(x+w, y+26)` is one pixel tall, so the `w` streamed
pixels walk along the row. -/
def fastHLinePixels (x y w : Int) : List (Int × Int) :=
  (List.range w.toNat).map (fun j => (x + 1 + (j : Int), y + 26))

/-- The pixels painted by `tft_draw_line(x0, y0, x1, y1, color)`:
vertical segments normalize the endpoint order and use the fast vertical
line with `h = y1 - y0 + 1`, horizontal segments likewise with the fast
horizontal line, and everything else goes to Bresenham. -/
def tft_draw_line_pixels (x0 y0 x1 y1 : Int) : List (Int × Int) :=
  if x0 = x1 then
    let p := if y0 > y1 then (y1, y0) else (y0, y1)
    fastVLinePixels x0 p.1 (p.2 - p.1 + 1)
  else if y0 = y1 then
    let p := if x0 > x1 then (x1, x0) else (x0, x1)
    fastHLinePixels p.1 y0 (p.2 - p.1 + 1)
  else bresenhamPixels x0 y0 x1 y1

theorem dmaCycles_count_clear (r : Nat) :
    (dmaCycles r).count DMAAction.clearFlag = r := by
  induction r with
  | zero => rfl
  | succ n ih => simp [dmaCycles, List.count_cons, ih]

theorem dmaCycles_count_wait (r : Nat) :
    (dmaCycles r).count DMAAction.waitComplete = r := by
  induction r with
  | zero => rfl
  | succ n ih => simp [dmaCycles, List.count_cons, ih]

theorem dmaCycles_count_setAddr (r : Nat) :
    (dmaCycles r).count DMAAction.setAddr = 0 := by
  induction r with
  | zero => rfl
  | succ n ih => simp [dmaCycles, List.count_cons, ih]

theorem dmaCycles_count_setLen (r n : Nat) :
    (dmaCycles r).count (DMAAction.setLen n) = 0 := by
  induction r with
  | zero => rfl
  | succ m ih => simp [dmaCycles, List.count_cons, ih]

theorem engineEnabledAfter_disable (l : List DMAAction) (e : Bool) :
    engineEnabledAfter (l ++ [DMAAction.disable]) e = false := by
  simp [engineEnabledAfter, List.foldl_append]

/-- C8: for every repeat count `R` (including `R = 0`), `SPI_send_DMA`
performs exactly `R` clear-completion-flag/poll-until-complete cycles,
configures the engine's source address and length exactly once — as the
first two register writes, before any cycle — and leaves the DMA channel
disabled when it returns. -/
theorem spi_send_dma_repeat_cycles (buf : List Nat) (size rep : Nat) :
    ((SPI_send_DMA buf size rep initState).dmaActs).count DMAAction.clearFlag = rep ∧
    ((SPI_send_DMA buf size rep initState).dmaActs).count DMAAction.waitComplete = rep ∧
    ((SPI_send_DMA buf size rep initState).dmaActs).count DMAAction.setAddr = 1 ∧
    ((SPI_send_DMA buf size rep initState).dmaActs).count (DMAAction.setLen size) = 1 ∧
    ((SPI_send_DMA buf size rep initState).dmaActs).take 3 =
      [DMAAction.setAddr, DMAAction.setLen size, DMAAction.enable] ∧
    engineEnabledAfter ((SPI_send_DMA buf size rep initState).dmaActs) false = false := by
  refine ⟨?_, ?_, ?_, ?_, ?_, ?_⟩ <;>
    simp [SPI_send_DMA, initState, List.count_append, List.count_cons,
      dmaCycles_count_clear, dmaCycles_count_wait, dmaCycles_count_setAddr,
      dmaCycles_count_setLen]
  · simp [engineEnabledAfter, List.foldl_append]

/-- C5 counterexample: after `tft_set_window` returns, the mode (DC)
line is low — COMMAND mode, because the memory-write command byte is the
last thing framed — not DATA mode as the claim states. -/
theorem set_window_not_data_mode :
    ¬ ((tft_set_window 0 0 0 0 initState).dc = true) := by
  decide

/-- C5 (amended): `tft_set_window(x0,y0,x1,y1)` emits to the bus exactly
the column-address-set command (`0x2A`) in COMMAND mode followed by the
16-bit pair `(x0, x1)` in DATA mode, then the row-address-set command
(`0x2B`) with `(y0, y1)`, then the memory-write command (`0x2C`) with no
argument, every 16-bit value MSB first as two bytes; after it returns
the mode line is in COMMAND mode (its callers assert DATA mode before
streaming the pixel data). -/
theorem set_window_emission (x0 y0 x1 y1 : Nat) (s : DriverState) :
    (tft_set_window x0 y0 x1 y1 s).trace =
      s.trace ++ setWindowBytes x0 y0 x1 y1 ∧
    (tft_set_window x0 y0 x1 y1 s).dc = false := by
  rw [set_window_run]
  exact ⟨rfl, rfl⟩

theorem print_char_run (font : Nat → Nat) (c : Nat) (s : DriverState) :
    (tft_print_char font c s).cursor_x = s.cursor_x ∧
    (tft_print_char font c s).cursor_y = s.cursor_y ∧
    (tft_print_char font c s).color = s.color ∧
    (tft_print_char font c s).bg_color = s.bg_color := by
  simp [tft_print_char, SPI_send_DMA, DATA_MODE, START_WRITE, END_WRITE,
    set_window_run]

theorem print_cursor_advance (font : Nat → Nat) (cs : List Nat) :
    ∀ s : DriverState, s.cursor_x < 65536 →
      (tft_print font cs s).cursor_x = (s.cursor_x + 6 * cs.length) % 65536 ∧
      (tft_print font cs s).cursor_y = s.cursor_y ∧
      (tft_print font cs s).color = s.color ∧
      (tft_print font cs s).bg_color = s.bg_color := by
  induction cs with
  | nil =>
    intro s hs
    simpa [tft_print] using (Nat.mod_eq_of_lt hs).symm
  | cons c cs ih =>
    intro s hs
    have hc := print_char_run font c s
    simp only [tft_print]
    have hlt : ({ tft_print_char font c s with
        cursor_x := ((tft_print_char font c s).cursor_x + 6) % 65536 } :
        DriverState).cursor_x < 65536 := Nat.mod_lt _ (by omega)
    obtain ⟨h1, h2, h3, h4⟩ := ih _ hlt
    refine ⟨?_, ?_, ?_, ?_⟩
    · rw [h1]
      simp only [hc.1, List.length_cons, Nat.mod_add_mod]
      ring_nf
    · rw [h2]
      exact hc.2.1
    · rw [h3]
      exact hc.2.2.1
    · rw [h4]
      exact hc.2.2.2

/-- C9: `tft_print_char` leaves the cursor position, foreground color
and background color unchanged for every character code; the
`FONT_WIDTH + 1 = 6`-column cursor advance per character is performed
only by the string-printing loop `tft_print`, so calling
`tft_print_char` directly overprints at the same cursor position. -/
theorem print_char_frame_effect (font : Nat → Nat) (c : Nat) (cs : List Nat)
    (s : DriverState) (hs : s.cursor_x < 65536) :
    (tft_print_char font c s).cursor_x = s.cursor_x ∧
    (tft_print_char font c s).cursor_y = s.cursor_y ∧
    (tft_print_char font c s).color = s.color ∧
    (tft_print_char font c s).bg_color = s.bg_color ∧
    (tft_print font cs s).cursor_x = (s.cursor_x + 6 * cs.length) % 65536 := by
  obtain ⟨h1, h2, h3, h4⟩ := print_char_run font c s
  exact ⟨h1, h2, h3, h4, (print_cursor_advance font cs s hs).1⟩

theorem print_char_frame_effect_witness :
    (tft_print_char (fun _ => 0) 65 initState).cursor_x = initState.cursor_x ∧
    (tft_print_char (fun _ => 0) 65 initState).cursor_y = initState.cursor_y ∧
    (tft_print_char (fun _ => 0) 65 initState).color = initState.color ∧
    (tft_print_char (fun _ => 0) 65 initState).bg_color = initState.bg_color ∧
    (tft_print (fun _ => 0) [72, 105] initState).cursor_x =
      (initState.cursor_x + 6 * ([72, 105] : List Nat).length) % 65536 :=
  print_char_frame_effect (fun _ => 0) 65 [72, 105] initState (by decide)

theorem cdiff_comm (a b : Int) : cdiff a b = cdiff b a := by
  unfold cdiff
  split_ifs <;> omega

theorem bresNorm_swap (x0 y0 x1 y1 : Int) (hx : x0 ≠ x1) (hy : y0 ≠ y1) :
    bresNorm x0 y0 x1 y1 = bresNorm x1 y1 x0 y0 := by
  unfold bresNorm
  rw [cdiff_comm y0 y1, cdiff_comm x0 x1]
  by_cases hs : cdiff y1 y0 > cdiff x1 x0
  · rcases lt_or_gt_of_ne hy with h | h
    · simp [hs, show ¬ (y0 > y1) by omega, show y1 > y0 by omega]
    · simp [hs, show y0 > y1 by omega, show ¬ (y1 > y0) by omega]
  · rcases lt_or_gt_of_ne hx with h | h
    · simp [hs, show ¬ (x0 > x1) by omega, show x1 > x0 by omega]
    · simp [hs, show x0 > x1 by omega, show ¬ (x1 > x0) by omega]

/-- C2: for endpoints with `x0 ≠ x1` and `y0 ≠ y1` (within display
bounds, where the `int16_t` arithmetic cannot overflow), the Bresenham
rasterizer draws the identical pixels for the segment
`(x0,y0) → (x1,y1)` as for the reversed segment `(x1,y1) → (x0,y0)`:
both normalize to the same transposed, left-to-right segment before the
emission loop runs. -/
theorem bresenham_reversal_symmetric (x0 y0 x1 y1 : Int)
    (hx : x0 ≠ x1) (hy : y0 ≠ y1)
    (hx0 : 0 ≤ x0) (hx0w : x0 < 160) (hy0 : 0 ≤ y0) (hy0h : y0 < 80)
    (hx1 : 0 ≤ x1) (hx1w : x1 < 160) (hy1 : 0 ≤ y1) (hy1h : y1 < 80) :
    bresenhamPixels x0 y0 x1 y1 = bresenhamPixels x1 y1 x0 y0 := by
  unfold bresenhamPixels
  rw [bresNorm_swap x0 y0 x1 y1 hx hy]

theorem bresenham_reversal_symmetric_witness :
    bresenhamPixels 3 1 10 5 = bresenhamPixels 10 5 3 1 :=
  bresenham_reversal_symmetric 3 1 10 5 (by decide) (by decide) (by decide)
    (by decide) (by decide) (by decide) (by decide) (by decide) (by decide)
    (by decide)

/-- C4: for every axis-aligned segment (within display bounds), the
pixels painted by `tft_draw_line` are exactly those of the corresponding
fast vertical/horizontal primitive applied to the normalized endpoints,
and the painted pixels are invariant under swapping the two endpoints
(the endpoint order is normalized before the fast primitive is called). -/
theorem draw_line_axis_aligned_fast (x0 y0 x1 y1 : Int)
    (haxis : x0 = x1 ∨ y0 = y1)
    (hx0 : 0 ≤ x0) (hx0w : x0 < 160) (hy0 : 0 ≤ y0) (hy0h : y0 < 80)
    (hx1 : 0 ≤ x1) (hx1w : x1 < 160) (hy1 : 0 ≤ y1) (hy1h : y1 < 80) :
    tft_draw_line_pixels x0 y0 x1 y1 = tft_draw_line_pixels x1 y1 x0 y0 ∧
    (x0 = x1 → tft_draw_line_pixels x0 y0 x1 y1 =
      fastVLinePixels x0 (min y0 y1) (max y0 y1 - min y0 y1 + 1)) ∧
    (y0 = y1 → tft_draw_line_pixels x0 y0 x1 y1 =
      fastHLinePixels (min x0 x1) y0 (max x0 x1 - min x0 x1 + 1)) := by
  refine ⟨?_, ?_, ?_⟩
  · rcases haxis with h | h
    · subst h
      rcases lt_trichotomy y0 y1 with hy | hy | hy
      · simp [tft_draw_line_pixels, show ¬ (y0 > y1) by omega,
          show y1 > y0 by omega]
      · subst hy
        rfl
      · simp [tft_draw_line_pixels, show y0 > y1 by omega,
          show ¬ (y1 > y0) by omega]
    · subst h
      by_cases hx : x0 = x1
      · subst hx
        rfl
      · rcases lt_or_gt_of_ne hx with h | h
        · simp [tft_draw_line_pixels, hx, Ne.symm hx,
            show ¬ (x0 > x1) by omega, show x1 > x0 by omega]
        · simp [tft_draw_line_pixels, hx, Ne.symm hx,
            show x0 > x1 by omega, show ¬ (x1 > x0) by omega]
  · intro h
    subst h
    rcases le_or_lt y0 y1 with hy | hy
    · simp [tft_draw_line_pixels, show ¬ (y0 > y1) by omega,
        min_eq_left hy, max_eq_right hy]
    · simp [tft_draw_line_pixels, show y0 > y1 by omega,
        min_eq_right (le_of_lt hy), max_eq_left (le_of_lt hy)]
  · intro h
    subst h
    by_cases hx : x0 = x1
    · subst hx
      simp [tft_draw_line_pixels, fastVLinePixels, fastHLinePixels]
    · rcases lt_or_gt_of_ne hx with h | h
      · simp [tft_draw_line_pixels, hx, show ¬ (x0 > x1) by omega,
          min_eq_left (le_of_lt h), max_eq_right (le_of_lt h)]
      · simp [tft_draw_line_pixels, hx, show x0 > x1 by omega,
          min_eq_right (le_of_lt h), max_eq_left (le_of_lt h)]

theorem draw_line_axis_aligned_fast_witness :
    (tft_draw_line_pixels 5 7 5 2 = tft_draw_line_pixels 5 2 5 7 ∧
      ((5 : Int) = 5 → tft_draw_line_pixels 5 7 5 2 =
        fastVLinePixels 5 (min 7 2) (max 7 2 - min 7 2 + 1)) ∧
      ((7 : Int) = 2 → tft_draw_line_pixels 5 7 5 2 =
        fastHLinePixels (min 5 5) 7 (max 5 5 - min 5 5 + 1))) :=
  draw_line_axis_aligned_fast 5 7 5 2 (Or.inl rfl) (by decide) (by decide)
    (by decide) (by decide) (by decide) (by decide) (by decide) (by decide)

theorem fillRow_eq (n c : Nat) :
    fillRow n c = (List.replicate n [hi16 c, lo16 c]).flatten := by
  induction n with
  | zero => rfl
  | succ m ih => simp [fillRow, List.replicate_succ, ih]

theorem fillRow_length (n c : Nat) : (fillRow n c).length = 2 * n := by
  induction n with
  | zero => rfl
  | succ m ih =>
    simp [fillRow, ih]
    omega

theorem dmaStream_eq (buf : List Nat) (size r : Nat) :
    dmaStream buf size r = (List.replicate r (buf.take size)).flatten := by
  induction r with
  | zero => rfl
  | succ m ih => simp [dmaStream, List.replicate_succ, ih]

theorem flatten_replicate_flatten {α : Type} (a b : Nat) (l : List α) :
    (List.replicate a (List.replicate b l).flatten).flatten =
      (List.replicate (a * b) l).flatten := by
  induction a with
  | zero => simp
  | succ m ih =>
    simp only [List.replicate_succ, List.flatten_cons, ih, Nat.succ_mul,
      Nat.add_comm, List.replicate_add, List.flatten_append]

/-- C1: for every rectangle `(x, y, w, h)` within display bounds,
`tft_fill_rect` builds exactly one row of `w` pixels (`2w` bytes) of the
given color in the scratch buffer, issues exactly one bulk transfer of
that `2w`-byte row with `repeat = h`, and the byte stream sent after the
addressed window is exactly `w·h` repetitions of the color's two bytes
(MSB first), i.e. the solid fill in row-major order. -/
theorem fill_rect_bulk_stream (x y w h color : Nat) (s : DriverState)
    (hw : 1 ≤ w) (hh : 1 ≤ h) (hxw : x + w ≤ 160) (hyh : y + h ≤ 80) :
    (tft_fill_rect x y w h color s).buffer =
      (List.replicate w [hi16 color, lo16 color]).flatten
        ++ s.buffer.drop (2 * w) ∧
    (tft_fill_rect x y w h color s).dmaActs = s.dmaActs ++
      [DMAAction.setAddr, DMAAction.setLen (2 * w), DMAAction.enable]
      ++ dmaCycles h ++ [DMAAction.disable] ∧
    (tft_fill_rect x y w h color s).trace = s.trace
      ++ setWindowBytes (x + 1) (y + 26) (x + w) (y + 25 + h)
      ++ ((List.replicate (w * h) [hi16 color, lo16 color]).flatten).map
          (fun b => (true, b)) := by
  have e1 : (x + ST7735_X_OFFSET) % 65536 = x + 1 := by
    simp only [ST7735_X_OFFSET]
    omega
  have e2 : (y + ST7735_Y_OFFSET) % 65536 = y + 26 := by
    simp only [ST7735_Y_OFFSET]
    omega
  have e3 : (x + 1 + w + 65535) % 65536 = x + w := by omega
  have e4 : (y + 26 + h + 65535) % 65536 = y + 25 + h := by omega
  have etake : ((fillRow w color ++ s.buffer.drop (fillRow w color).length).take
      (2 * w)) = fillRow w color := by
    have : 2 * w = (fillRow w color).length := (fillRow_length w color).symm
    rw [this, List.take_left]
  have estream : (dmaStream
      (fillRow w color ++ s.buffer.drop (fillRow w color).length) (2 * w)
        h).map (fun b => ((true : Bool), b)) =
      ((List.replicate (w * h) [hi16 color, lo16 color]).flatten).map
        (fun b => (true, b)) := by
    rw [dmaStream_eq, etake, fillRow_eq, flatten_replicate_flatten,
      Nat.mul_comm h w]
  simp only [tft_fill_rect, e1, e2, e3, e4, bufWrite, set_window_run,
    SPI_send_DMA, DATA_MODE, START_WRITE, END_WRITE]
  refine ⟨?_, ?_, ?_⟩
  · rw [fillRow_length, fillRow_eq]
  · simp
  · rw [estream]

theorem fill_rect_bulk_stream_witness :
    (tft_fill_rect 2 3 4 5 9999 initState).buffer =
      (List.replicate 4 [hi16 9999, lo16 9999]).flatten
        ++ initState.buffer.drop (2 * 4) ∧
    (tft_fill_rect 2 3 4 5 9999 initState).dmaActs = initState.dmaActs ++
      [DMAAction.setAddr, DMAAction.setLen (2 * 4), DMAAction.enable]
      ++ dmaCycles 5 ++ [DMAAction.disable] ∧
    (tft_fill_rect 2 3 4 5 9999 initState).trace = initState.trace
      ++ setWindowBytes (2 + 1) (3 + 26) (2 + 4) (3 + 25 + 5)
      ++ ((List.replicate (4 * 5) [hi16 9999, lo16 9999]).flatten).map
          (fun b => (true, b)) :=
  fill_rect_bulk_stream 2 3 4 5 9999 initState (by decide) (by decide)
    (by decide) (by decide)

theorem charBlock_length (font : Nat → Nat) (c fg bg : Nat) :
    (charBlock font c fg bg).length = 70 := by
  have h7 : List.range 7 = [0, 1, 2, 3, 4, 5, 6] := rfl
  have h5 : List.range 5 = [0, 1, 2, 3, 4] := rfl
  simp [charBlock, h7, h5, apply_ite List.length]

/-- C6 counterexample: `tft_fill_rect(0, y, 160, h, color)` — the
full-width fill, satisfying the display-bounds precondition
`x + w ≤ 160` — builds a row of exactly `2·160 = 320` bytes, which is
equal to, not strictly fewer than, the scratch buffer capacity. -/
theorem fill_capacity_not_strict :
    0 + 160 ≤ 160 ∧ ¬ ((fillRow 160 0).length < bufferCapacity) := by
  constructor
  · decide
  · rw [fillRow_length]
    decide

/-- C6 (amended): every single fill operation stays within the scratch
buffer capacity of `160 × 2 = 320` bytes — `tft_fill_rect` and
`_tft_draw_fast_h_line` write the `2·w`-byte row `fillRow w color`,
`_tft_draw_fast_v_line` writes the `2·h`-byte column `fillRow h color`,
and `tft_print_char` writes the 70-byte glyph block — i.e. at most
(not strictly fewer than) `bufferCapacity` bytes, for every argument
satisfying the display-bounds precondition.  The bound is attained at
`w = 160`. -/
theorem single_fill_within_capacity (x y w h c ch fg bg : Nat)
    (font : Nat → Nat) (hxw : x + w ≤ 160) (hyh : y + h ≤ 80) :
    (fillRow w c).length ≤ bufferCapacity ∧
    (fillRow h c).length ≤ bufferCapacity ∧
    (charBlock font ch fg bg).length ≤ bufferCapacity := by
  rw [fillRow_length, fillRow_length, charBlock_length]
  simp only [bufferCapacity, ST7735_WIDTH]
  omega

theorem single_fill_within_capacity_witness :
    (fillRow 160 5 : List Nat).length ≤ bufferCapacity ∧
    (fillRow 80 5 : List Nat).length ≤ bufferCapacity ∧
    (charBlock (fun _ => 0) 65 5 6).length ≤ bufferCapacity :=
  single_fill_within_capacity 0 0 160 80 5 65 5 6 (fun _ => 0) (by decide)
    (by decide)

theorem prefix_helper {α : Type} {t p r : List α} (h : t = p ++ r) :
    p <+: t := ⟨r, h.symm⟩

theorem draw_pixel_run (x y c : Nat) (s : DriverState) :
    (tft_draw_pixel x y c s).trace =
      s.trace ++ setWindowBytes ((x + 1) % 65536) ((y + 26) % 65536)
        ((x + 1) % 65536) ((y + 26) % 65536)
      ++ [(true, hi16 c), (true, lo16 c)] := by
  simp [tft_draw_pixel, ST7735_X_OFFSET, ST7735_Y_OFFSET, set_window_run,
    write_data_16, SPI_send, DATA_MODE, START_WRITE, END_WRITE, hi16, lo16]

theorem fast_v_line_run (x y h c : Nat) (s : DriverState) :
    (tft_draw_fast_v_line x y h c s).trace =
      s.trace ++ setWindowBytes ((x + 1) % 65536) ((y + 26) % 65536)
        ((x + 1) % 65536) (((y + 26) % 65536 + h + 65535) % 65536)
      ++ (dmaStream (bufWrite (fillRow h c) s.buffer) (2 * h) 1).map
          (fun b => (true, b)) := by
  simp [tft_draw_fast_v_line, ST7735_X_OFFSET, ST7735_Y_OFFSET,
    set_window_run, SPI_send_DMA, DATA_MODE, START_WRITE, END_WRITE, bufWrite]

theorem fast_h_line_run (x y w c : Nat) (s : DriverState) :
    (tft_draw_fast_h_line x y w c s).trace =
      s.trace ++ setWindowBytes ((x + 1) % 65536) ((y + 26) % 65536)
        (((x + 1) % 65536 + w + 65535) % 65536) ((y + 26) % 65536)
      ++ (dmaStream (bufWrite (fillRow w c) s.buffer) (2 * w) 1).map
          (fun b => (true, b)) := by
  simp [tft_draw_fast_h_line, ST7735_X_OFFSET, ST7735_Y_OFFSET,
    set_window_run, SPI_send_DMA, DATA_MODE, START_WRITE, END_WRITE, bufWrite]

theorem draw_bitmap_run (x y w h : Nat) (bitmap : List Nat) (s : DriverState) :
    (tft_draw_bitmap x y w h bitmap s).trace =
      s.trace ++ setWindowBytes ((x + 1) % 65536) ((y + 26) % 65536)
        (((x + 1) % 65536 + w + 65535) % 65536)
        (((y + 26) % 65536 + h + 65535) % 65536)
      ++ (dmaStream bitmap (w * h * 2 % 65536) 1).map (fun b => (true, b)) := by
  simp [tft_draw_bitmap, ST7735_X_OFFSET, ST7735_Y_OFFSET, set_window_run,
    SPI_send_DMA, DATA_MODE, START_WRITE, END_WRITE]

theorem print_char_run_trace (font : Nat → Nat) (c : Nat) (s : DriverState) :
    (tft_print_char font c s).trace =
      s.trace ++ setWindowBytes s.cursor_x s.cursor_y
        ((s.cursor_x + 4) % 65536) ((s.cursor_y + 6) % 65536)
      ++ (dmaStream (bufWrite (charBlock font c s.color s.bg_color) s.buffer)
          (charBlock font c s.color s.bg_color).length 1).map
          (fun b => (true, b)) := by
  simp [tft_print_char, set_window_run, SPI_send_DMA, DATA_MODE, START_WRITE,
    END_WRITE, bufWrite]

theorem fill_rect_run_trace (x y w h c : Nat) (s : DriverState) :
    (tft_fill_rect x y w h c s).trace =
      s.trace ++ setWindowBytes ((x + 1) % 65536) ((y + 26) % 65536)
        (((x + 1) % 65536 + w + 65535) % 65536)
        (((y + 26) % 65536 + h + 65535) % 65536)
      ++ (dmaStream (bufWrite (fillRow w c) s.buffer) (2 * w) h).map
          (fun b => (true, b)) := by
  simp [tft_fill_rect, ST7735_X_OFFSET, ST7735_Y_OFFSET, set_window_run,
    SPI_send_DMA, DATA_MODE, START_WRITE, END_WRITE, bufWrite]

/-- C7: for every drawing and text primitive and every public coordinate
within display bounds (including the corners `(0,0)` and `(159,79)`),
the window coordinates issued to the bus equal the public coordinate
plus the fixed offset — `ST7735_X_OFFSET = 1` columns and
`ST7735_Y_OFFSET = 26` rows, constants fixed at compile time. -/
theorem window_coords_offset_translated (x y w h c ch : Nat)
    (font : Nat → Nat) (bitmap : List Nat) (s : DriverState)
    (hx : x < 160) (hy : y < 80) (hw : 1 ≤ w) (hh : 1 ≤ h)
    (hxw : x + w ≤ 160) (hyh : y + h ≤ 80) :
    ST7735_X_OFFSET = 1 ∧ ST7735_Y_OFFSET = 26 ∧
    (s.trace ++ setWindowBytes (x + ST7735_X_OFFSET) (y + ST7735_Y_OFFSET)
      (x + ST7735_X_OFFSET) (y + ST7735_Y_OFFSET)) <+:
        (tft_draw_pixel x y c s).trace ∧
    (s.trace ++ setWindowBytes (x + ST7735_X_OFFSET) (y + ST7735_Y_OFFSET)
      (x + (w - 1) + ST7735_X_OFFSET) (y + (h - 1) + ST7735_Y_OFFSET)) <+:
        (tft_fill_rect x y w h c s).trace ∧
    (s.trace ++ setWindowBytes (x + ST7735_X_OFFSET) (y + ST7735_Y_OFFSET)
      (x + ST7735_X_OFFSET) (y + (h - 1) + ST7735_Y_OFFSET)) <+:
        (tft_draw_fast_v_line x y h c s).trace ∧
    (s.trace ++ setWindowBytes (x + ST7735_X_OFFSET) (y + ST7735_Y_OFFSET)
      (x + (w - 1) + ST7735_X_OFFSET) (y + ST7735_Y_OFFSET)) <+:
        (tft_draw_fast_h_line x y w c s).trace ∧
    (s.trace ++ setWindowBytes (x + ST7735_X_OFFSET) (y + ST7735_Y_OFFSET)
      (x + (w - 1) + ST7735_X_OFFSET) (y + (h - 1) + ST7735_Y_OFFSET)) <+:
        (tft_draw_bitmap x y w h bitmap s).trace ∧
    (s.trace ++ setWindowBytes (x + ST7735_X_OFFSET) (y + ST7735_Y_OFFSET)
      (x + 4 + ST7735_X_OFFSET) (y + 6 + ST7735_Y_OFFSET)) <+:
        (tft_print_char font ch (tft_set_cursor x y s)).trace := by
  have e1 : (x + 1) % 65536 = x + 1 := by omega
  have e2 : (y + 26) % 65536 = y + 26 := by omega
  have e3 : (x + 1 + w + 65535) % 65536 = x + (w - 1) + 1 := by omega
  have e4 : (y + 26 + h + 65535) % 65536 = y + (h - 1) + 26 := by omega
  have e5 : (x + 1 + 4) % 65536 = x + 4 + 1 := by omega
  have e6 : (y + 26 + 6) % 65536 = y + 6 + 26 := by omega
  refine ⟨rfl, rfl, ?_, ?_, ?_, ?_, ?_, ?_⟩
  · have e := draw_pixel_run x y c s
    rw [e1, e2] at e
    simp only [ST7735_X_OFFSET, ST7735_Y_OFFSET]
    rw [e]
    exact List.prefix_append _ _
  · have e := fill_rect_run_trace x y w h c s
    rw [e1, e2, e3, e4] at e
    simp only [ST7735_X_OFFSET, ST7735_Y_OFFSET]
    rw [e]
    exact List.prefix_append _ _
  · have e := fast_v_line_run x y h c s
    rw [e1, e2, e4] at e
    simp only [ST7735_X_OFFSET, ST7735_Y_OFFSET]
    rw [e]
    exact List.prefix_append _ _
  · have e := fast_h_line_run x y w c s
    rw [e1, e2, e3] at e
    simp only [ST7735_X_OFFSET, ST7735_Y_OFFSET]
    rw [e]
    exact List.prefix_append _ _
  · have e := draw_bitmap_run x y w h bitmap s
    rw [e1, e2, e3, e4] at e
    simp only [ST7735_X_OFFSET, ST7735_Y_OFFSET]
    rw [e]
    exact List.prefix_append _ _
  · have e := print_char_run_trace font ch (tft_set_cursor x y s)
    simp only [tft_set_cursor, ST7735_X_OFFSET, ST7735_Y_OFFSET] at e
    rw [e1, e2, e5, e6] at e
    simp only [tft_set_cursor, ST7735_X_OFFSET, ST7735_Y_OFFSET]
    rw [e1, e2, e]
    exact List.prefix_append _ _

theorem window_coords_offset_translated_witness :
    ST7735_X_OFFSET = 1 ∧ ST7735_Y_OFFSET = 26 ∧
    (initState.trace ++ setWindowBytes (0 + ST7735_X_OFFSET)
      (0 + ST7735_Y_OFFSET) (0 + ST7735_X_OFFSET) (0 + ST7735_Y_OFFSET)) <+:
        (tft_draw_pixel 0 0 7 initState).trace ∧
    (initState.trace ++ setWindowBytes (0 + ST7735_X_OFFSET)
      (0 + ST7735_Y_OFFSET) (0 + (160 - 1) + ST7735_X_OFFSET)
      (0 + (80 - 1) + ST7735_Y_OFFSET)) <+:
        (tft_fill_rect 0 0 160 80 7 initState).trace ∧
    (initState.trace ++ setWindowBytes (0 + ST7735_X_OFFSET)
      (0 + ST7735_Y_OFFSET) (0 + ST7735_X_OFFSET)
      (0 + (80 - 1) + ST7735_Y_OFFSET)) <+:
        (tft_draw_fast_v_line 0 0 80 7 initState).trace ∧
    (initState.trace ++ setWindowBytes (0 + ST7735_X_OFFSET)
      (0 + ST7735_Y_OFFSET) (0 + (160 - 1) + ST7735_X_OFFSET)
      (0 + ST7735_Y_OFFSET)) <+:
        (tft_draw_fast_h_line 0 0 160 7 initState).trace ∧
    (initState.trace ++ setWindowBytes (0 + ST7735_X_OFFSET)
      (0 + ST7735_Y_OFFSET) (0 + (160 - 1) + ST7735_X_OFFSET)
      (0 + (80 - 1) + ST7735_Y_OFFSET)) <+:
        (tft_draw_bitmap 0 0 160 80 [] initState).trace ∧
    (initState.trace ++ setWindowBytes (0 + ST7735_X_OFFSET)
      (0 + ST7735_Y_OFFSET) (0 + 4 + ST7735_X_OFFSET)
      (0 + 6 + ST7735_Y_OFFSET)) <+:
        (tft_print_char (fun _ => 0) 65 (tft_set_cursor 0 0 initState)).trace :=
  window_coords_offset_translated 0 0 160 80 7 65 (fun _ => 0) [] initState
    (by decide) (by decide) (by decide) (by decide) (by decide) (by decide)

/-- C3: `tft_print_number` at the failing input `num = -2147483648`.
The code negates with `num = -num`, which wraps on `int32_t` and leaves
`INT32_MIN` negative; C's truncating `%`/`/` then produce negative
remainders, so the characters written are `'0' + d` for `d ∈ [-9, 0]` —
garbage codes 40–47 — instead of the decimal digits.  At every other
representative value from the spec the emitted character string is the
decimal string, and the cursor advances by the padding plus 6 pixels per
character. -/
theorem print_number_int_min_divergence :
    numString (-2147483648) ≠ specDecimalCodes (-2147483648) ∧
    numString 0 = specDecimalCodes 0 ∧
    numString 7 = specDecimalCodes 7 ∧
    numString (-7) = specDecimalCodes (-7) ∧
    numString 12345 = specDecimalCodes 12345 ∧
    numString 2147483647 = specDecimalCodes 2147483647 ∧
    (tft_print_number (fun _ => 0) 12345 40 initState).cursor_x =
      initState.cursor_x + (40 - (5 * 6 - 1)) + 6 * 5 := by
  have hmin : specDecimalCodes (-2147483648) =
      [45, 50, 49, 52, 55, 52, 56, 51, 54, 52, 56] := by
    norm_num [specDecimalCodes, Nat.digits_def']
  have h7 : specDecimalCodes 7 = [55] := by
    norm_num [specDecimalCodes, Nat.digits_def']
  have hn7 : specDecimalCodes (-7) = [45, 55] := by
    norm_num [specDecimalCodes, Nat.digits_def']
  have h12345 : specDecimalCodes 12345 = [49, 50, 51, 52, 53] := by
    norm_num [specDecimalCodes, Nat.digits_def']
  have hmax : specDecimalCodes 2147483647 =
      [50, 49, 52, 55, 52, 56, 51, 54, 52, 55] := by
    norm_num [specDecimalCodes, Nat.digits_def']
  refine ⟨?_, ?_, ?_, ?_, ?_, ?_, ?_⟩
  · rw [hmin]
    decide
  · decide
  · rw [h7]
    decide
  · rw [hn7]
    decide
  · rw [h12345]
    decide
  · rw [hmax]
    decide
  · decide

theorem digitsLen_le_ten {m : Nat} (hm : m ≤ 2147483648) :
    (Nat.digits 10 m).length ≤ 10 := by
  by_contra hlt
  push_neg at hlt
  have h0 : m ≠ 0 := by
    rintro rfl
    simp at hlt
  have h := Nat.base_pow_length_digits_le 10 m (by norm_num) h0
  have h11 : (10 : Nat) ^ 11 ≤ 10 ^ (Nat.digits 10 m).length :=
    Nat.pow_le_pow_right (by norm_num) hlt
  have he : (10 : Nat) ^ 11 = 100000000000 := by norm_num
  omega

theorem convGo_length : ∀ (fuel : Nat) (n : Int), n.natAbs < 10 ^ fuel →
    (convGo fuel n).length = (Nat.digits 10 n.natAbs).length := by
  intro fuel
  induction fuel with
  | zero =>
    intro n h
    have h0 : n.natAbs = 0 := by simpa using h
    simp [convGo, h0]
  | succ fuel ih =>
    intro n h
    by_cases h0 : n = 0
    · subst h0
      simp [convGo]
    · have hna : (n.tdiv 10).natAbs = n.natAbs / 10 := by
        rw [Int.natAbs_tdiv]
        rfl
      have hlt : (n.tdiv 10).natAbs < 10 ^ fuel := by
        rw [hna]
        have hp : (10 : Nat) ^ (fuel + 1) = 10 ^ fuel * 10 := by ring
        rw [hp] at h
        omega
      have hpos : 0 < n.natAbs := by
        simpa [Int.natAbs_pos] using h0
      rw [convGo, if_neg h0, List.length_append, ih _ hlt, hna,
        Nat.digits_def' (by norm_num : (1 : Nat) < 10) hpos]
      simp

/-- C10: for every `int32_t` input (and every field width, which the
conversion does not affect), the conversion loop of `tft_print_number`
produces at most 10 digit characters and at most one sign character, so
the write position in the 12-byte `str`, starting at index 11 (the
terminator), never goes below 0: all writes land in indices 0–11. -/
theorem print_number_buffer_safe (num : Int) (width : Nat)
    (hlo : -2147483648 ≤ num) (hhi : num < 2147483648) :
    (convLoop (if num < 0 then wrap32 (-num) else num)).length ≤ 10 ∧
    (numString num).length ≤ 11 := by
  have hna : (if num < 0 then wrap32 (-num) else num).natAbs ≤ 2147483648 := by
    split_ifs with hneg
    · simp only [wrap32]
      omega
    · omega
  have hlt : (if num < 0 then wrap32 (-num) else num).natAbs < 10 ^ 12 := by
    have he : (10 : Nat) ^ 12 = 1000000000000 := by norm_num
    omega
  have hlen := convGo_length 12 _ hlt
  have hd : (Nat.digits 10
      (if num < 0 then wrap32 (-num) else num).natAbs).length ≤ 10 :=
    digitsLen_le_ten hna
  have hc : (convLoop (if num < 0 then wrap32 (-num) else num)).length ≤ 10 := by
    rw [convLoop, hlen]
    exact hd
  refine ⟨hc, ?_⟩
  simp only [numString]
  split_ifs with h1 h2 h3 <;> simp_all <;> omega

theorem print_number_buffer_safe_witness :
    (convLoop (if (-2147483648 : Int) < 0 then wrap32 (-(-2147483648 : Int))
      else (-2147483648 : Int))).length ≤ 10 ∧
    (numString (-2147483648)).length ≤ 11 :=
  print_number_buffer_safe (-2147483648) 0 (by decide) (by decide)
